import Mathlib

/-!
Shallow embedding of the movie recommender in `app.py` (class
`MovieRecommenderML` plus its console driver `main`), together with proofs
about its recommendation pipeline.

The rating store is a list of (userId, movieId, rating) rows; the catalog is
the fixed five-movie list from `__init__`.  `pandas`/`numpy` operations are
modelled as follows: `pivot_table` sorts its index and columns ascending and
aggregates duplicate cells with its default aggfunc (the mean), filling
missing cells with 0; `StandardScaler` z-scores each column (population
standard deviation); `cosine_similarity` is the usual dot-product formula
(a zero vector yields similarity 0, as in sklearn, which replaces zero norms
by 1 before dividing); `argsort` sorts indices by value ascending.
-/

structure Movie where
  movieId : Int
  title : String
  genres : String
deriving DecidableEq

structure Rating where
  userId : Int
  movieId : Int
  rating : Rat
deriving DecidableEq

/-- The hardcoded catalog `self.movies_data` from `__init__`. -/
def movies_data : List Movie :=
  [⟨1, "Inception", "Action|Sci-Fi"⟩,
   ⟨2, "The Matrix", "Sci-Fi|Action"⟩,
   ⟨3, "Interstellar", "Sci-Fi|Drama"⟩,
   ⟨4, "Dark Knight", "Action|Drama"⟩,
   ⟨5, "Pulp Fiction", "Crime|Drama"⟩]

/-- The distinct values of a list, sorted ascending: the index (resp. column)
set that `pivot_table` derives from the `userId` (resp. `movieId`) column. -/
def dedupSort (l : List Int) : List Int :=
  l.dedup.insertionSort (· ≤ ·)

/-- Row labels of the rating matrix: the userIds with at least one stored row. -/
def usersOf (store : List Rating) : List Int :=
  dedupSort (store.map (·.userId))

/-- Column labels of the rating matrix: the movieIds with at least one stored row. -/
def moviesOf (store : List Rating) : List Int :=
  dedupSort (store.map (·.movieId))

/-- All rating values stored for one (userId, movieId) cell, in store order. -/
def cellValues (store : List Rating) (u m : Int) : List Rat :=
  (store.filter (fun r => r.userId = u ∧ r.movieId = m)).map (·.rating)

/-- One cell of `pivot_table(index='userId', columns='movieId', values='rating',
fill_value=0)`: the mean (the default aggfunc) of the stored values for the
cell, or the fill value 0 when the cell has no stored row. -/
def pivotCell (store : List Rating) (u m : Int) : Rat :=
  if cellValues store u m = [] then 0
  else (cellValues store u m).sum / ((cellValues store u m).length : Rat)

/-- The dense user-by-movie grid `self.rating_matrix`. -/
def pivotMatrix (store : List Rating) : List (List Rat) :=
  (usersOf store).map (fun u => (moviesOf store).map (fun m => pivotCell store u m))

/-- `pd.Series(candidates).value_counts()`: each distinct value paired with its
occurrence count, ordered by count descending.  (pandas does not guarantee an
order among equal counts; this model keeps first-appearance order there.) -/
def valueCounts (l : List Int) : List (Int × Nat) :=
  (l.dedup.map (fun v => (v, l.count v))).insertionSort (fun a b => b.2 ≤ a.2)

/-- `movie_scores.head(n).index.tolist()`: the n highest-count candidate ids. -/
def topMovieIds (candidates : List Int) (n : Nat) : List Int :=
  ((valueCounts candidates).take n).map (·.1)

/-- `set(self.ratings_data[self.ratings_data['userId'] == user_id]['movieId'])`:
every movieId the target user has a stored row for (kept as a list; only
membership matters). -/
def userRatedMovies (store : List Rating) (uid : Int) : List Int :=
  (store.filter (fun r => r.userId = uid)).map (·.movieId)

/-- The candidate accumulation loop of `recommend_movies`: for each similar
user, the movieIds they rated at least 4 that the target has not rated. -/
def simCandidates (store : List Rating) (uid : Int) (su : List Int) : List Int :=
  su.flatMap (fun s =>
    (store.filter (fun r =>
      r.userId = s ∧ 4 ≤ r.rating ∧ r.movieId ∉ userRatedMovies store uid)).map (·.movieId))

/-- `set(self.movies_data['movieId']) - user_rated_movies`: the catalog movies
the target user has not rated. -/
def unseenMovies (store : List Rating) (uid : Int) : List Int :=
  (movies_data.map (·.movieId)).filter (fun m => m ∉ userRatedMovies store uid)

/-- The candidate list of `recommend_movies` for a given similar-user list:
the accumulated similar-user candidates, or on empty the unseen-catalog
fallback. -/
def candidatesWith (store : List Rating) (uid : Int) (su : List Int) : List Int :=
  if simCandidates store uid su = [] then unseenMovies store uid
  else simCandidates store uid su

/-- The body of `recommend_movies` (app.py lines 101-145) with the similar-user
list passed in as a value: empty when the target has no stored row, otherwise
the catalog rows whose movieId is among the top-n candidates by count. -/
def recommendCore (store : List Rating) (uid : Int) (n : Nat) (su : List Int) : List Movie :=
  if userRatedMovies store uid = [] then []
  else if candidatesWith store uid su = [] then []
  else movies_data.filter (fun mv => mv.movieId ∈ topMovieIds (candidatesWith store uid su) n)

/-- Column mean used by `StandardScaler`: the mean of movie column m over all
matrix rows. -/
def colMean (store : List Rating) (m : Int) : Rat :=
  (((usersOf store).map (fun u => pivotCell store u m)).sum) / ((usersOf store).length : Rat)

/-- Column (population) variance used by `StandardScaler`. -/
def colVar (store : List Rating) (m : Int) : Rat :=
  (((usersOf store).map (fun u => (pivotCell store u m - colMean store m) ^ 2)).sum)
    / ((usersOf store).length : Rat)

/-- One entry of `self.normalized_matrix = scaler.fit_transform(rating_matrix)`:
the z-score of the cell within its movie column.  A zero-variance column gives
0, as sklearn does (it replaces a zero scale by 1, and every deviation in such
a column is 0); here the same value falls out of division by zero. -/
noncomputable def normCell (store : List Rating) (u m : Int) : ℝ :=
  ((pivotCell store u m : ℝ) - (colMean store m : ℝ)) / Real.sqrt (colVar store m : ℝ)

/-- One row of the normalized matrix. -/
noncomputable def normRow (store : List Rating) (u : Int) : List ℝ :=
  (moviesOf store).map (fun m => normCell store u m)

/-- `self.normalized_matrix`, row per user (in index order). -/
noncomputable def normMatrix (store : List Rating) : List (List ℝ) :=
  (usersOf store).map (fun u => normRow store u)

/-- Dot product of two equally long real vectors. -/
noncomputable def dotl (xs ys : List ℝ) : ℝ :=
  (List.zipWith (fun a b => a * b) xs ys).sum

/-- `sklearn.metrics.pairwise.cosine_similarity` of two vectors; a zero vector
yields 0 (sklearn replaces a zero norm by 1 before dividing, and in Lean
division by zero gives 0 as well). -/
noncomputable def cosineSim (xs ys : List ℝ) : ℝ :=
  dotl xs ys / (Real.sqrt (dotl xs xs) * Real.sqrt (dotl ys ys))

/-- `cosine_similarity(user_vector, self.normalized_matrix)[0]` where
`user_vector` is matrix row number uidx: the similarity of that row with every
matrix row, in row order. -/
noncomputable def simsAt (store : List Rating) (uidx : Nat) : List ℝ :=
  (normMatrix store).map (fun row => cosineSim ((normMatrix store).getD uidx []) row)

section
open Classical

/-- `numpy.argsort`: the row indices ordered by ascending similarity value.
(numpy does not guarantee an order among ties; this model is stable.) -/
noncomputable def argsortAsc (l : List ℝ) : List Nat :=
  ((l.enum).insertionSort (fun a b => a.2 ≤ b.2)).map (·.1)

/-- `find_similar_users` (app.py lines 75-99): empty when fewer than 5 rows are
stored, the normalized matrix is empty, or the target is not a matrix row;
otherwise the userIds at positions 1 through top_n of the similarity ranking
`similarities.argsort()[::-1]`. -/
noncomputable def find_similar_users (store : List Rating) (uid : Int) (top_n : Nat) : List Int :=
  if store.length < 5 then []
  else if normMatrix store = [] ∨ uid ∉ usersOf store then []
  else
    (((argsortAsc (simsAt store ((usersOf store).indexOf uid))).reverse.drop 1).take top_n).map
      (fun i => (usersOf store).getD i 0)

end

/-- `recommend_movies` (app.py lines 101-145): the core applied to the similar
users found with the call's default top_n = 3. -/
noncomputable def recommend_movies (store : List Rating) (uid : Int) (n : Nat) : List Movie :=
  recommendCore store uid n (find_similar_users store uid 3)

/-- The similar-user candidate list actually accumulated by `recommend_movies`. -/
noncomputable def similarCandidates (store : List Rating) (uid : Int) : List Int :=
  simCandidates store uid (find_similar_users store uid 3)

/-- The candidate list actually ranked by `recommend_movies`. -/
noncomputable def candidatesOf (store : List Rating) (uid : Int) : List Int :=
  candidatesWith store uid (find_similar_users store uid 3)

/-- The mutable fields of a `MovieRecommenderML` object. -/
structure RecState where
  movies_data : List Movie
  ratings_data : List Rating
  rating_matrix : List (List Rat)
  normalized_matrix : List (List ℝ)

/-- `prepare_rating_matrix` (app.py lines 56-73): overwrites the two derived
matrix fields from the current Rating Store and touches nothing else. -/
noncomputable def prepare_rating_matrixS (s : RecState) : RecState :=
  { s with
    rating_matrix := pivotMatrix s.ratings_data
    normalized_matrix := normMatrix s.ratings_data }

/-- `find_similar_users` as a state transformer: it rebuilds the matrices
(via `prepare_rating_matrix`) unless it bails out on the under-5-rows gate,
and its returned value is the pure `find_similar_users`. -/
noncomputable def find_similar_usersS (s : RecState) (uid : Int) (top_n : Nat) :
    RecState × List Int :=
  if s.ratings_data.length < 5 then (s, [])
  else (prepare_rating_matrixS s, find_similar_users s.ratings_data uid top_n)

/-- `recommend_movies` as a state transformer: it first rebuilds the matrices,
then (when the target has stored rows) runs `find_similar_users`, and returns
the pure recommendation list. -/
noncomputable def recommend_moviesS (s : RecState) (uid : Int) (n : Nat) :
    RecState × List Movie :=
  if userRatedMovies (prepare_rating_matrixS s).ratings_data uid = [] then
    (prepare_rating_matrixS s, [])
  else
    ((find_similar_usersS (prepare_rating_matrixS s) uid 3).1,
      recommendCore (find_similar_usersS (prepare_rating_matrixS s) uid 3).1.ratings_data uid n
        (find_similar_usersS (prepare_rating_matrixS s) uid 3).2)

/-- `collect_initial_ratings` (app.py lines 23-54): `entries` are the values
accepted by the per-movie validation loop (which re-prompts until the input is
an integer between 0 and 5), one per catalog movie; only strictly positive
entries create stored rows. -/
def collect_initial_ratings (store : List Rating) (uid : Int) (entries : List Int) :
    List Rating :=
  store ++ (((movies_data.map (·.movieId)).zip entries).filter (fun p => 0 < p.2)).map
    (fun p => { userId := uid, movieId := p.1, rating := (p.2 : Rat) })

/-- The ad-hoc rating entry of `main` (app.py lines 171-180): appends one row
with no range validation on the rating. -/
def manual_add (store : List Rating) (uid mid : Int) (r : Rat) : List Rating :=
  store ++ [{ userId := uid, movieId := mid, rating := r }]

/-- One store-mutating step of the `main` session loop: an initial-collection
pass (whose entries passed the 0..5 validation loop) or one ad-hoc rating. -/
inductive SessionStep : List Rating → List Rating → Prop
  | collect (s : List Rating) (uid : Int) (entries : List Int)
      (hv : ∀ e ∈ entries, 0 ≤ e ∧ e ≤ 5) :
      SessionStep s (collect_initial_ratings s uid entries)
  | manual (s : List Rating) (uid mid : Int) (r : Rat) :
      SessionStep s (manual_add s uid mid r)

/-- A Rating Store reachable from the empty initial store by session steps. -/
def SessionReachable (s : List Rating) : Prop :=
  Relation.ReflTransGen SessionStep [] s

/-- A session step restricted to the initial-collection operation. -/
inductive InitStep : List Rating → List Rating → Prop
  | collect (s : List Rating) (uid : Int) (entries : List Int)
      (hv : ∀ e ∈ entries, 0 ≤ e ∧ e ≤ 5) :
      InitStep s (collect_initial_ratings s uid entries)

/-- A Rating Store built from the empty store by initial collection alone. -/
def InitReachable (s : List Rating) : Prop :=
  Relation.ReflTransGen InitStep [] s

/-- Modelled from the spec: the duplicate policy the spec claims for the pivot,
keeping the last value seen for a (userId, movieId) cell. -/
def specLastValue (store : List Rating) (u m : Int) : Rat :=
  ((cellValues store u m).getLast?).getD 0

/-! ### Helper lemmas -/

lemma find_similar_users_eq_nil_of_short {store : List Rating} (uid : Int) (top_n : Nat)
    (h : store.length < 5) : find_similar_users store uid top_n = [] := by
  unfold find_similar_users
  rw [if_pos h]

lemma recommend_movies_eq_core_of_short {store : List Rating} (uid : Int) (n : Nat)
    (h : store.length < 5) :
    recommend_movies store uid n = recommendCore store uid n [] := by
  unfold recommend_movies
  rw [find_similar_users_eq_nil_of_short uid 3 h]

lemma similarCandidates_eq_nil_of_short {store : List Rating} (uid : Int)
    (h : store.length < 5) : similarCandidates store uid = [] := by
  unfold similarCandidates
  rw [find_similar_users_eq_nil_of_short uid 3 h]
  rfl

lemma mem_of_mem_topMovieIds {c : List Int} {n : Nat} {x : Int}
    (h : x ∈ topMovieIds c n) : x ∈ c := by
  unfold topMovieIds at h
  rcases List.mem_map.1 h with ⟨p, hp, rfl⟩
  have hp' : p ∈ valueCounts c := List.mem_of_mem_take hp
  unfold valueCounts at hp'
  rw [List.mem_insertionSort] at hp'
  rcases List.mem_map.1 hp' with ⟨v, hv, rfl⟩
  exact List.mem_dedup.1 hv

lemma not_rated_of_mem_candidatesWith {store : List Rating} {uid : Int} {su : List Int}
    {x : Int} (h : x ∈ candidatesWith store uid su) : x ∉ userRatedMovies store uid := by
  unfold candidatesWith at h
  by_cases hc : simCandidates store uid su = []
  · rw [if_pos hc] at h
    unfold unseenMovies at h
    simpa using (List.mem_filter.1 h).2
  · rw [if_neg hc] at h
    unfold simCandidates at h
    rcases List.mem_flatMap.1 h with ⟨s, _, hs⟩
    rcases List.mem_map.1 hs with ⟨r, hr, rfl⟩
    have := (List.mem_filter.1 hr).2
    simp only [decide_eq_true_eq] at this
    exact this.2.2

lemma rated_mem_userRatedMovies {store : List Rating} {r : Rating} {uid : Int}
    (hr : r ∈ store) (hu : r.userId = uid) : r.movieId ∈ userRatedMovies store uid := by
  unfold userRatedMovies
  exact List.mem_map.2 ⟨r, List.mem_filter.2 ⟨hr, by simp [hu]⟩, rfl⟩

lemma enum_fst_range {α : Type} (l : List α) :
    l.enum.map Prod.fst = List.range l.length := by
  simp [List.enum_eq_enumFrom, List.enumFrom_map_fst, List.range_eq_range']

lemma normMatrix_getD_indexOf {store : List Rating} {uid : Int} (hu : uid ∈ usersOf store) :
    (normMatrix store).getD ((usersOf store).indexOf uid) [] = normRow store uid := by
  have hul : (usersOf store).indexOf uid < (usersOf store).length :=
    List.indexOf_lt_length.2 hu
  unfold normMatrix
  rw [List.getD_eq_getElem _ _ (by simpa using hul), List.getElem_map,
    List.getElem_indexOf hul]

lemma simsAt_length (store : List Rating) (uidx : Nat) :
    (simsAt store uidx).length = (usersOf store).length := by
  unfold simsAt normMatrix
  simp

lemma argsortAsc_perm (l : List ℝ) : (argsortAsc l).Perm (List.range l.length) := by
  unfold argsortAsc
  have h2 := (List.perm_insertionSort (fun a b : Nat × ℝ => a.2 ≤ b.2) l.enum).map Prod.fst
  rw [enum_fst_range] at h2
  exact h2

lemma argsortAsc_reverse_sorted (l : List ℝ) :
    ((argsortAsc l).reverse.map (fun i => l.getD i 0)).Sorted (fun a b => b ≤ a) := by
  unfold argsortAsc
  have hsorted : ((l.enum).insertionSort (fun a b : Nat × ℝ => a.2 ≤ b.2)).Sorted
      (fun a b : Nat × ℝ => a.2 ≤ b.2) := by
    haveI : IsTotal (Nat × ℝ) (fun a b : Nat × ℝ => a.2 ≤ b.2) :=
      ⟨fun a b => le_total a.2 b.2⟩
    haveI : IsTrans (Nat × ℝ) (fun a b : Nat × ℝ => a.2 ≤ b.2) :=
      ⟨fun a b c h1 h2 => le_trans h1 h2⟩
    exact List.sorted_insertionSort _ _
  rw [← List.map_reverse, List.map_map]
  have hcong : ((l.enum).insertionSort (fun a b : Nat × ℝ => a.2 ≤ b.2)).reverse.map
        ((fun i => l.getD i 0) ∘ (fun p : Nat × ℝ => p.1))
      = ((l.enum).insertionSort (fun a b : Nat × ℝ => a.2 ≤ b.2)).reverse.map
        (fun p : Nat × ℝ => p.2) := by
    apply List.map_congr_left
    intro p hp
    have hpe : p ∈ l.enum :=
      (List.mem_insertionSort _).1 (List.mem_reverse.1 hp)
    have hg := List.mem_enum_iff_getElem?.1 hpe
    show l.getD p.1 0 = p.2
    rw [List.getD_eq_getD_get?, List.get?_eq_getElem?, hg]
    rfl
  rw [hcong]
  have hrev : ((l.enum).insertionSort (fun a b : Nat × ℝ => a.2 ≤ b.2)).reverse.Pairwise
      (fun a b : Nat × ℝ => b.2 ≤ a.2) := by
    rw [List.pairwise_reverse]
    exact hsorted
  exact hrev.map _ (fun a b h => h)

lemma valueCounts_sorted (l : List Int) :
    (valueCounts l).Sorted (fun a b => b.2 ≤ a.2) := by
  haveI : IsTotal (Int × Nat) (fun a b => b.2 ≤ a.2) := ⟨fun a b => le_total b.2 a.2⟩
  haveI : IsTrans (Int × Nat) (fun a b => b.2 ≤ a.2) := ⟨fun a b c h1 h2 => le_trans h2 h1⟩
  exact List.sorted_insertionSort _ _

lemma mem_valueCounts {l : List Int} {p : Int × Nat} :
    p ∈ valueCounts l ↔ p.1 ∈ l.dedup ∧ p.2 = l.count p.1 := by
  unfold valueCounts
  rw [List.mem_insertionSort, List.mem_map]
  constructor
  · rintro ⟨v, hv, rfl⟩
    exact ⟨hv, rfl⟩
  · rcases p with ⟨a, b⟩
    rintro ⟨h1, h2⟩
    exact ⟨a, h1, by rw [← h2]⟩

/-! ### Claims -/

/-- C2: for every userId and every top_n, `find_similar_users` returns an empty
list when the Rating Store holds fewer than 5 rows, or the normalized Rating
Matrix is empty, or the target userId is absent from the matrix rows. -/
theorem C2_soft_fail_empty (store : List Rating) (uid : Int) (top_n : Nat)
    (h : store.length < 5 ∨ normMatrix store = [] ∨ uid ∉ usersOf store) :
    find_similar_users store uid top_n = [] := by
  unfold find_similar_users
  by_cases h5 : store.length < 5
  · rw [if_pos h5]
  · rw [if_neg h5, if_pos (h.resolve_left h5)]

/-- C2 witness: the empty store has fewer than 5 rows, and any target user
gets the empty list. -/
theorem C2_witness :
    (([] : List Rating).length < 5 ∨ normMatrix [] = [] ∨ (5 : Int) ∉ usersOf []) ∧
      find_similar_users [] 5 3 = [] :=
  ⟨Or.inl (by decide), C2_soft_fail_empty [] 5 3 (Or.inl (by decide))⟩

/-- C3: a target user with zero stored rating rows gets an empty
recommendation result, whatever similar-user list the Similarity Engine would
have produced (the similarity step is never consulted: `recommendCore` returns
empty for every possible `su`), and in particular `recommend_movies` is empty,
regardless of the other users' rows in the store. -/
theorem C3_zero_ratings_empty (store : List Rating) (uid : Int) (n : Nat)
    (h : store.filter (fun r => r.userId = uid) = []) :
    (∀ su : List Int, recommendCore store uid n su = []) ∧
      recommend_movies store uid n = [] := by
  have hur : userRatedMovies store uid = [] := by
    unfold userRatedMovies
    rw [h]
    rfl
  have hcore : ∀ su : List Int, recommendCore store uid n su = [] := by
    intro su
    unfold recommendCore
    rw [if_pos hur]
  exact ⟨hcore, by unfold recommend_movies; exact hcore _⟩

/-- C3 witness: user 1 has no rows in a store that holds another user's row. -/
theorem C3_witness :
    ([(⟨2, 1, 5⟩ : Rating)].filter (fun r => r.userId = 1) = []) ∧
      ((∀ su : List Int, recommendCore [⟨2, 1, 5⟩] 1 3 su = []) ∧
        recommend_movies [⟨2, 1, 5⟩] 1 3 = []) :=
  ⟨by decide, C3_zero_ratings_empty [⟨2, 1, 5⟩] 1 3 (by decide)⟩

/-- C9: `recommend_movies` only rewrites the derived matrix fields of the
object state: the Rating Store field `ratings_data` and the Catalog field
`movies_data` are unchanged after the call. -/
theorem C9_frame (s : RecState) (uid : Int) (n : Nat) :
    (recommend_moviesS s uid n).1.ratings_data = s.ratings_data ∧
      (recommend_moviesS s uid n).1.movies_data = s.movies_data := by
  unfold recommend_moviesS find_similar_usersS prepare_rating_matrixS
  split <;> try split
  all_goals simp

/-- C1: a movie record returned by `recommend_movies` never carries a movieId
the target user has already rated with a positive rating: every candidate —
similar-user or fallback — is filtered against the target's rated set. -/
theorem C1_no_rated_recommended (store : List Rating) (uid : Int) (n : Nat)
    (mv : Movie) (hm : mv ∈ recommend_movies store uid n)
    (r : Rating) (hr : r ∈ store) (hru : r.userId = uid) (hpos : 0 < r.rating) :
    r.movieId ≠ mv.movieId := by
  intro heq
  unfold recommend_movies recommendCore at hm
  by_cases h1 : userRatedMovies store uid = []
  · rw [if_pos h1] at hm
    exact absurd hm (List.not_mem_nil _)
  · rw [if_neg h1] at hm
    by_cases h2 : candidatesWith store uid (find_similar_users store uid 3) = []
    · rw [if_pos h2] at hm
      exact absurd hm (List.not_mem_nil _)
    · rw [if_neg h2] at hm
      have h3 := (List.mem_filter.1 hm).2
      simp only [decide_eq_true_eq] at h3
      have h4 := mem_of_mem_topMovieIds h3
      have h5 := not_rated_of_mem_candidatesWith h4
      exact h5 (heq ▸ rated_mem_userRatedMovies hr hru)

/-- C1 witness: with the single row (user 1, movie 1, rating 5) stored, the
result for user 1 contains the movie-2 record, and movie 1 differs from it. -/
theorem C1_witness :
    ((⟨2, "The Matrix", "Sci-Fi|Action"⟩ : Movie) ∈ recommend_movies [⟨1, 1, 5⟩] 1 3 ∧
      (⟨1, 1, 5⟩ : Rating) ∈ ([⟨1, 1, 5⟩] : List Rating) ∧
      (⟨1, 1, 5⟩ : Rating).userId = 1 ∧ 0 < (⟨1, 1, 5⟩ : Rating).rating) ∧
      (⟨1, 1, 5⟩ : Rating).movieId ≠ (⟨2, "The Matrix", "Sci-Fi|Action"⟩ : Movie).movieId := by
  have hm : (⟨2, "The Matrix", "Sci-Fi|Action"⟩ : Movie) ∈ recommend_movies [⟨1, 1, 5⟩] 1 3 := by
    rw [recommend_movies_eq_core_of_short 1 3 (by decide)]
    decide
  exact ⟨⟨hm, by decide, by decide, by decide⟩,
    C1_no_rated_recommended [⟨1, 1, 5⟩] 1 3 _ hm _ (by decide) (by decide) (by decide)⟩

/-- C4: when at least 5 rows are stored and the target is a matrix row,
`find_similar_users` scores every user row — the target's own included — by
cosine similarity against the target's normalized row, ranks all rows by
descending similarity, drops exactly the single rank-0 entry, and returns the
userIds at ranks 1 through top_n of that ranking. -/
theorem C4_similarity_ranking (store : List Rating) (uid : Int) (top_n : Nat)
    (h5 : 5 ≤ store.length) (hu : uid ∈ usersOf store) :
    simsAt store ((usersOf store).indexOf uid)
        = (usersOf store).map (fun v => cosineSim (normRow store uid) (normRow store v)) ∧
      ∃ ranked : List Nat,
        ranked.Perm (List.range (usersOf store).length) ∧
        (ranked.map (fun i => (simsAt store ((usersOf store).indexOf uid)).getD i 0)).Sorted
          (fun a b => b ≤ a) ∧
        find_similar_users store uid top_n
          = ((ranked.drop 1).take top_n).map (fun i => (usersOf store).getD i 0) := by
  have hsim : simsAt store ((usersOf store).indexOf uid)
      = (usersOf store).map (fun v => cosineSim (normRow store uid) (normRow store v)) := by
    unfold simsAt
    rw [normMatrix_getD_indexOf hu]
    unfold normMatrix
    rw [List.map_map]
    rfl
  refine ⟨hsim,
    (argsortAsc (simsAt store ((usersOf store).indexOf uid))).reverse, ?_, ?_, ?_⟩
  · have h1 := argsortAsc_perm (simsAt store ((usersOf store).indexOf uid))
    rw [simsAt_length] at h1
    exact (List.reverse_perm _).trans h1
  · exact argsortAsc_reverse_sorted _
  · have hcond : ¬(normMatrix store = [] ∨ uid ∉ usersOf store) := by
      rintro (hnil | hmem)
      · unfold normMatrix at hnil
        exact List.ne_nil_of_mem hu (List.map_eq_nil_iff.1 hnil)
      · exact hmem hu
    unfold find_similar_users
    rw [if_neg (not_lt.2 h5), if_neg hcond]

/-- Witness store for C4: user 1 rated every catalog movie, 5 rows total. -/
def wStore4 : List Rating :=
  [⟨1, 1, 5⟩, ⟨1, 2, 4⟩, ⟨1, 3, 3⟩, ⟨1, 4, 2⟩, ⟨1, 5, 1⟩]

/-- C4 witness: the gate hypotheses hold at `wStore4` and the ranking
decomposition follows. -/
theorem C4_witness :
    (5 ≤ wStore4.length ∧ (1 : Int) ∈ usersOf wStore4) ∧
      (simsAt wStore4 ((usersOf wStore4).indexOf 1)
          = (usersOf wStore4).map (fun v => cosineSim (normRow wStore4 1) (normRow wStore4 v)) ∧
        ∃ ranked : List Nat,
          ranked.Perm (List.range (usersOf wStore4).length) ∧
          (ranked.map (fun i => (simsAt wStore4 ((usersOf wStore4).indexOf 1)).getD i 0)).Sorted
            (fun a b => b ≤ a) ∧
          find_similar_users wStore4 1 3
            = ((ranked.drop 1).take 3).map (fun i => (usersOf wStore4).getD i 0)) :=
  ⟨⟨by decide, by decide⟩, C4_similarity_ranking wStore4 1 3 (by decide) (by decide)⟩

/-- C5: when no similar-user candidates accumulate but some catalog movie is
unrated by the target, the candidate pool is exactly the unseen catalog set and
every returned record is drawn from it. -/
theorem C5_fallback_unseen (store : List Rating) (uid : Int) (n : Nat)
    (hr : userRatedMovies store uid ≠ [])
    (hsc : similarCandidates store uid = [])
    (hun : unseenMovies store uid ≠ []) :
    candidatesOf store uid = unseenMovies store uid ∧
      ∀ mv ∈ recommend_movies store uid n, mv.movieId ∈ unseenMovies store uid := by
  unfold similarCandidates at hsc
  have hcw : candidatesWith store uid (find_similar_users store uid 3)
      = unseenMovies store uid := by
    unfold candidatesWith
    rw [if_pos hsc]
  refine ⟨hcw, ?_⟩
  intro mv hm
  unfold recommend_movies recommendCore at hm
  rw [if_neg hr, hcw, if_neg hun] at hm
  have h3 := (List.mem_filter.1 hm).2
  simp only [decide_eq_true_eq] at h3
  exact mem_of_mem_topMovieIds h3

/-- C5 witness: one stored row (user 1, movie 1); the store is too small for
the Similarity Engine, so no similar-user candidates exist, movies 2-5 are
unseen, and the result is drawn from them. -/
theorem C5_witness :
    (userRatedMovies [⟨1, 1, 5⟩] 1 ≠ [] ∧ similarCandidates [⟨1, 1, 5⟩] 1 = [] ∧
      unseenMovies [⟨1, 1, 5⟩] 1 ≠ []) ∧
      (candidatesOf [⟨1, 1, 5⟩] 1 = unseenMovies [⟨1, 1, 5⟩] 1 ∧
        ∀ mv ∈ recommend_movies [⟨1, 1, 5⟩] 1 3, mv.movieId ∈ unseenMovies [⟨1, 1, 5⟩] 1) := by
  have hsc : similarCandidates [⟨1, 1, 5⟩] 1 = [] :=
    similarCandidates_eq_nil_of_short 1 (by decide)
  exact ⟨⟨by decide, hsc, by decide⟩,
    C5_fallback_unseen [⟨1, 1, 5⟩] 1 3 (by decide) hsc (by decide)⟩

/-- C6: candidate selection is monotonic in occurrence count — if candidate m1
occurs strictly more often than m2 in the candidate list ranked by
`recommend_movies` (lines 140-145), then whenever m2 makes the selected top n,
so does m1. -/
theorem C6_count_monotone (c : List Int) (n : Nat) (m1 m2 : Int)
    (h1 : m1 ∈ c) (hc : c.count m2 < c.count m1) (hm : m2 ∈ topMovieIds c n) :
    m1 ∈ topMovieIds c n := by
  have hp1 : (m1, c.count m1) ∈ valueCounts c :=
    mem_valueCounts.2 ⟨List.mem_dedup.2 h1, rfl⟩
  unfold topMovieIds at hm ⊢
  rcases List.mem_map.1 hm with ⟨p2, hp2take, hp2fst⟩
  have hp2cnt : p2.2 = c.count m2 := by
    have h := (mem_valueCounts.1 (List.mem_of_mem_take hp2take)).2
    rw [hp2fst] at h
    exact h
  by_cases hmem : (m1, c.count m1) ∈ (valueCounts c).take n
  · exact List.mem_map.2 ⟨_, hmem, rfl⟩
  · exfalso
    have hsplit : valueCounts c = (valueCounts c).take n ++ (valueCounts c).drop n :=
      (List.take_append_drop n _).symm
    have hdrop : (m1, c.count m1) ∈ (valueCounts c).drop n := by
      rcases List.mem_append.1 (hsplit ▸ hp1) with h | h
      · exact absurd h hmem
      · exact h
    have hsorted := valueCounts_sorted c
    rw [List.Sorted, hsplit, List.pairwise_append] at hsorted
    have hle : c.count m1 ≤ p2.2 := hsorted.2.2 p2 hp2take _ hdrop
    rw [hp2cnt] at hle
    exact absurd hle (not_le.2 hc)

/-- C6 witness: movie 1 occurs twice and movie 2 once among the candidates;
movie 2 is in the top 2, and so is movie 1. -/
theorem C6_witness :
    ((1 : Int) ∈ ([1, 1, 2] : List Int) ∧
      ([1, 1, 2] : List Int).count 2 < ([1, 1, 2] : List Int).count 1 ∧
      (2 : Int) ∈ topMovieIds [1, 1, 2] 2) ∧
      (1 : Int) ∈ topMovieIds [1, 1, 2] 2 :=
  ⟨⟨by decide, by decide, by decide⟩,
    C6_count_monotone [1, 1, 2] 2 1 2 (by decide) (by decide) (by decide)⟩

/-- C7 counterexample: with two duplicate rows for (user 1, movie 1) rated 1
then 5, the pivot cell holds their mean 3, not the last value seen, 5. -/
theorem C7_counterexample :
    pivotCell [⟨1, 1, 1⟩, ⟨1, 1, 5⟩] 1 1 = 3 ∧
      specLastValue [⟨1, 1, 1⟩, ⟨1, 1, 5⟩] 1 1 = 5 ∧
      pivotCell [⟨1, 1, 1⟩, ⟨1, 1, 5⟩] 1 1 ≠ specLastValue [⟨1, 1, 1⟩, ⟨1, 1, 5⟩] 1 1 := by
  refine ⟨?_, ?_, ?_⟩
  · simp [pivotCell, cellValues, List.filter]
    norm_num
  · simp [specLastValue, cellValues, List.filter]
  · simp [pivotCell, specLastValue, cellValues, List.filter]
    norm_num

/-- C7 (amended): the pivot collapses duplicate (userId, movieId) rows into
the arithmetic mean of all values stored for that cell — pandas pivot_table's
default aggfunc — not the last value seen. -/
theorem C7_pivot_mean (store : List Rating) (u m : Int)
    (hu : u ∈ usersOf store) (hm : m ∈ moviesOf store)
    (hne : cellValues store u m ≠ []) :
    ((pivotMatrix store).getD ((usersOf store).indexOf u) []).getD
        ((moviesOf store).indexOf m) 0
      = (cellValues store u m).sum / ((cellValues store u m).length : Rat) := by
  have hul : (usersOf store).indexOf u < (usersOf store).length :=
    List.indexOf_lt_length.2 hu
  have hml : (moviesOf store).indexOf m < (moviesOf store).length :=
    List.indexOf_lt_length.2 hm
  have hrow : (pivotMatrix store).getD ((usersOf store).indexOf u) []
      = (moviesOf store).map (fun m' => pivotCell store u m') := by
    unfold pivotMatrix
    rw [List.getD_eq_getElem _ _ (by simpa using hul), List.getElem_map,
      List.getElem_indexOf hul]
  rw [hrow, List.getD_eq_getElem _ _ (by simpa using hml), List.getElem_map,
    List.getElem_indexOf hml]
  unfold pivotCell
  rw [if_neg hne]

/-- C7 witness: the duplicate-cell matrix entry for (user 1, movie 1) equals
the mean of the stored values. -/
theorem C7_witness :
    ((1 : Int) ∈ usersOf [⟨1, 1, 1⟩, ⟨1, 1, 5⟩] ∧
      (1 : Int) ∈ moviesOf [⟨1, 1, 1⟩, ⟨1, 1, 5⟩] ∧
      cellValues [⟨1, 1, 1⟩, ⟨1, 1, 5⟩] 1 1 ≠ []) ∧
      ((pivotMatrix [⟨1, 1, 1⟩, ⟨1, 1, 5⟩]).getD
          ((usersOf [⟨1, 1, 1⟩, ⟨1, 1, 5⟩]).indexOf 1) []).getD
          ((moviesOf [⟨1, 1, 1⟩, ⟨1, 1, 5⟩]).indexOf 1) 0
        = (cellValues [⟨1, 1, 1⟩, ⟨1, 1, 5⟩] 1 1).sum
            / ((cellValues [⟨1, 1, 1⟩, ⟨1, 1, 5⟩] 1 1).length : Rat) :=
  ⟨⟨by decide, by decide, by decide⟩,
    C7_pivot_mean [⟨1, 1, 1⟩, ⟨1, 1, 5⟩] 1 1 (by decide) (by decide) (by decide)⟩

/-- C8 counterexample: the unvalidated ad-hoc rating entry of `main` can store
a rating of 0, so a reachable session state violates the claimed (0,5]
invariant. -/
theorem C8_counterexample :
    SessionReachable [⟨1, 2, 0⟩] ∧
      ¬ ∀ r ∈ ([⟨1, 2, 0⟩] : List Rating), 0 < r.rating ∧ r.rating ≤ 5 := by
  constructor
  · exact Relation.ReflTransGen.single (SessionStep.manual [] 1 2 0)
  · intro h
    exact lt_irrefl (0 : Rat) (h ⟨1, 2, 0⟩ (List.mem_singleton_self _)).1

/-- C8 (amended): for every store reachable using initial collection alone —
whose 0..5-validated entries drop the 0 ("unseen") answers before storage —
every stored rating lies in (0,5]; the ad-hoc entry path of `main` does not
validate and breaks the invariant, as the counterexample shows. -/
theorem C8_collect_invariant (s : List Rating) (h : InitReachable s) :
    ∀ r ∈ s, 0 < r.rating ∧ r.rating ≤ 5 := by
  induction h with
  | refl =>
    intro r hr
    exact absurd hr (List.not_mem_nil _)
  | tail _ hstep ih =>
    cases hstep with
    | collect uid entries hv =>
      intro r hr
      unfold collect_initial_ratings at hr
      rcases List.mem_append.1 hr with h | h
      · exact ih r h
      · rcases List.mem_map.1 h with ⟨⟨pm, pe⟩, hp, rfl⟩
        have hpos : 0 < pe := by simpa using (List.mem_filter.1 hp).2
        have hent : pe ∈ entries := (List.of_mem_zip (List.mem_of_mem_filter hp)).2
        have h5 : pe ≤ 5 := (hv pe hent).2
        constructor
        · show (0 : Rat) < ((pe : Int) : Rat)
          exact_mod_cast hpos
        · show ((pe : Int) : Rat) ≤ 5
          exact_mod_cast h5

/-- C8 witness: a store built by one initial collection with entries 5,0,3,0,1
is reachable by collection alone and satisfies the invariant. -/
theorem C8_witness :
    InitReachable (collect_initial_ratings [] 1 [5, 0, 3, 0, 1]) ∧
      ∀ r ∈ collect_initial_ratings [] 1 [5, 0, 3, 0, 1], 0 < r.rating ∧ r.rating ≤ 5 := by
  have hreach : InitReachable (collect_initial_ratings [] 1 [5, 0, 3, 0, 1]) :=
    Relation.ReflTransGen.single (InitStep.collect [] 1 [5, 0, 3, 0, 1] (by decide))
  exact ⟨hreach, C8_collect_invariant _ hreach⟩

/-- C10: the records returned by `recommend_movies` are always a sublist of
the fixed catalog `movies_data` — they appear in catalog order, ascending
movieId, whatever the occurrence counts selected. -/
theorem C10_catalog_order (store : List Rating) (uid : Int) (n : Nat) :
    (recommend_movies store uid n).Sublist movies_data ∧
      ((recommend_movies store uid n).map (·.movieId)).Sorted (· < ·) := by
  have hsub : (recommend_movies store uid n).Sublist movies_data := by
    unfold recommend_movies recommendCore
    by_cases h1 : userRatedMovies store uid = []
    · rw [if_pos h1]
      exact List.nil_sublist _
    · rw [if_neg h1]
      by_cases h2 : candidatesWith store uid (find_similar_users store uid 3) = []
      · rw [if_pos h2]
        exact List.nil_sublist _
      · rw [if_neg h2]
        exact List.filter_sublist _
  have hcat : (movies_data.map (·.movieId)).Sorted (· < ·) := by decide
  exact ⟨hsub, List.Pairwise.sublist (hsub.map _) hcat⟩
